import Mathlib

/-!
Formal verification of the soraking ad-generation pipeline core.

This file gives a shallow embedding, in Lean 4, of the Python modules under
`src/modules/` that the specification's claims are about:

* `modules/utils.py`         — `normalize_spokesperson`
* `modules/aggression_variants.py` — `AggressionVariantGenerator`
* `modules/prompt_validator.py`    — `PromptValidator`
* `modules/sora_prompt_builder.py` — `SoraPromptBuilder`
* `modules/sora_client.py`         — `SoraClient.generate_variant_parallel`

Python dictionaries are modelled as association lists, Python strings as Lean
`String`, and the remote Sora backend as explicit parameters (submission
results, terminal outcomes, completion order).  Each claim from the
specification is then stated and settled as a theorem about these definitions.
-/

/-! ## Python string primitives

All string scanning is done on the character list (`String.data`) with
structural recursion, so every definition evaluates inside the kernel. -/

/-- Does `pat` occur as a prefix of `l`? -/
def isPrefixL : List Char → List Char → Bool
  | [], _ => true
  | _ :: _, [] => false
  | p :: ps, c :: cs => p == c && isPrefixL ps cs

/-- Does `pat` occur as a contiguous sublist of `l`? -/
def subListL (pat : List Char) : List Char → Bool
  | [] => pat.isEmpty
  | c :: rest => isPrefixL pat (c :: rest) || subListL pat rest

/-- Python's `needle in hay` substring test. -/
def pyIn (needle hay : String) : Bool :=
  subListL needle.data hay.data

/-- Number of non-overlapping occurrences of `pat` in `l`, scanning left to
right (the semantics of Python's `str.count`).  `fuel` only forces
structural recursion (so the kernel can evaluate it); a match always
consumes at least one character, so `fuel = l.length` never runs out. -/
def countSubLAux (pat : List Char) (fuel : Nat) (l : List Char) : Nat :=
  match fuel, l with
  | 0, _ => 0
  | _, [] => 0
  | fuel + 1, c :: rest =>
    if isPrefixL pat (c :: rest) then
      1 + countSubLAux pat fuel (rest.drop (pat.length - 1))
    else countSubLAux pat fuel rest

/-- Python's `hay.count(sub)` for non-empty `sub`. -/
def pyCount (hay sub : String) : Nat :=
  countSubLAux sub.data hay.data.length hay.data

/-- Python's `str.lower()` (ASCII, which is all the source uses). -/
def pyLower (s : String) : String :=
  ⟨s.data.map Char.toLower⟩

/-! ## `modules/utils.py` -/

namespace Utils

/-- A Python/JSON value, as far as `normalize_spokesperson` can observe it:
a dict (association list), a list, a string, or anything else (opaque). -/
inductive PyVal where
  | dict (fields : List (String × PyVal))
  | list (items : List PyVal)
  | str (s : String)
  | other (tag : Nat)

/-- Python `d.get(k)`: the value at the first binding of `k`, if any. -/
def dictGet (d : List (String × PyVal)) (k : String) : Option PyVal :=
  (d.find? (fun p => p.1 == k)).map (fun p => p.2)

/-- Python `d[k] = v`: replace the first binding of `k`, else append. -/
def dictSet (d : List (String × PyVal)) (k : String) (v : PyVal) :
    List (String × PyVal) :=
  match d with
  | [] => [(k, v)]
  | (k', v') :: rest =>
    if k' == k then (k', v) :: rest else (k', v') :: dictSet rest k v

/-- Embedding of `normalize_spokesperson` (src/modules/utils.py lines 8-34):
take `analysis.get('spokesperson', {})`; if it is a list, return its first
element (or `{}` when empty); if it is a dict, return it; else return `{}`. -/
def normalize_spokesperson (analysis : List (String × PyVal)) : PyVal :=
  let spokesperson := (dictGet analysis "spokesperson").getD (.dict [])
  match spokesperson with
  | .list items =>
    match items with
    | first :: _ => first
    | [] => .dict []
  | .dict r => .dict r
  | _ => .dict []

end Utils

/-! ## `modules/aggression_variants.py` -/

namespace AggressionVariants

/-- An aggression preset, as loaded from settings or from
`_get_default_presets` (src/modules/aggression_variants.py lines 180-240). -/
structure Preset where
  name : String
  description : String
  lighting : String
  tone : String
  pacing : String
  camera_movement : String
  music : String
  energy_level : String
  color_palette : String
  transitions : String
  emotion_keywords : List String

/-- The four aggression levels (the closed set iterated in
`generate_variants`). -/
inductive Level where
  | soft | medium | aggressive | ultra
deriving DecidableEq

/-- The level's name string, as used for dict keys in the Python source. -/
def levelStr : Level → String
  | .soft => "soft"
  | .medium => "medium"
  | .aggressive => "aggressive"
  | .ultra => "ultra"

/-- The fixed iteration order `['soft', 'medium', 'aggressive', 'ultra']`
of `generate_variants`. -/
def levels : List Level := [.soft, .medium, .aggressive, .ultra]

/-- The `aggression_modifiers` sub-dict written by `_modify_scene`. -/
structure Modifiers where
  lighting : String
  tone : String
  pacing : String
  camera_movement : String
  energy_level : String
  emotion_keywords : List String

/-- A value stored in a scene dict: a string, the `aggression_modifiers`
record, or any other (opaque) value. -/
inductive SVal where
  | str (s : String)
  | mods (m : Modifiers)
  | other (tag : Nat)

/-- A scene dict (association list, insertion-ordered like a Python dict). -/
abbrev SceneDict := List (String × SVal)

/-- Python `d.get(k)` on a scene dict. -/
def sceneGet (d : SceneDict) (k : String) : Option SVal :=
  (d.find? (fun p => p.1 == k)).map (fun p => p.2)

/-- Python `d[k] = v` on a scene dict: replace the first binding, else
append. -/
def sceneSet (d : SceneDict) (k : String) (v : SVal) : SceneDict :=
  match d with
  | [] => [(k, v)]
  | (k', v') :: rest =>
    if k' == k then (k', v) :: rest else (k', v') :: sceneSet rest k v

/-- `scene.get('emotion', '')`, read as the string the source then lowercases
(a non-string value there would make the Python crash; it is modelled as
the empty string, which no claim exercises). -/
def sceneEmotion (scene : SceneDict) : String :=
  match sceneGet scene "emotion" with
  | some (.str s) => s
  | some _ => ""
  | none => ""

/-- The level-keyed base-emotion translation table `emotion_map` of
`_adjust_emotion` (src/modules/aggression_variants.py lines 129-162), in
dict insertion order.  `emotion_map.get(level, {})` is empty for any other
level string. -/
def emotion_map (aggression_level : String) : List (String × String) :=
  if aggression_level = "soft" then
    [("frustrated", "thoughtfully concerned"),
     ("excited", "pleasantly surprised"),
     ("urgent", "gently insistent"),
     ("confident", "calmly assured"),
     ("worried", "quietly concerned"),
     ("determined", "steadily focused")]
  else if aggression_level = "medium" then
    [("frustrated", "determined to help"),
     ("excited", "confidently enthusiastic"),
     ("urgent", "focused and direct"),
     ("confident", "professionally assured"),
     ("worried", "actively addressing"),
     ("determined", "purposefully driven")]
  else if aggression_level = "aggressive" then
    [("frustrated", "fed up and taking action"),
     ("excited", "fired up with energy"),
     ("urgent", "intensely driven"),
     ("confident", "boldly assertive"),
     ("worried", "urgently concerned"),
     ("determined", "fiercely committed")]
  else if aggression_level = "ultra" then
    [("frustrated", "explosively candid"),
     ("excited", "wildly enthusiastic"),
     ("urgent", "relentlessly compelling"),
     ("confident", "unshakably bold"),
     ("worried", "dramatically alarmed"),
     ("determined", "unstoppably fierce")]
  else []

/-- The six base emotion words, in the table's iteration order. -/
def baseEmotions : List String :=
  ["frustrated", "excited", "urgent", "confident", "worried", "determined"]

/-- Embedding of `_adjust_emotion` (src/modules/aggression_variants.py lines
116-178): find the first base emotion contained in the lowercased original
and return its level-specific translation, else fall back to the first
emotion keyword (or `'confident'` when the keyword list is empty). -/
def adjust_emotion (original_emotion : String) (emotion_keywords : List String)
    (aggression_level : String) : String :=
  let original_lower := pyLower original_emotion
  match (emotion_map aggression_level).find?
      (fun p => pyIn p.1 original_lower) with
  | some p => p.2
  | none => emotion_keywords.headD "confident"

/-- The `aggression_modifiers` record built in `_modify_scene`. -/
def mkModifiers (preset : Preset) : Modifiers :=
  { lighting := preset.lighting
    tone := preset.tone
    pacing := preset.pacing
    camera_movement := preset.camera_movement
    energy_level := preset.energy_level
    emotion_keywords := preset.emotion_keywords }

/-- Embedding of `_modify_scene` (src/modules/aggression_variants.py lines
86-114): copy the scene, set `aggression_modifiers`, and rewrite `emotion`
from the original scene's emotion. -/
def modify_scene (scene : SceneDict) (preset : Preset) (level : String) :
    SceneDict :=
  let modified := sceneSet scene "aggression_modifiers" (.mods (mkModifiers preset))
  sceneSet modified "emotion"
    (.str (adjust_emotion (sceneEmotion scene) preset.emotion_keywords level))

/-- The analysis dict, as far as `generate_variants` reads it:
`analysis.get('scene_breakdown', [])` plus an opaque remainder. -/
structure Analysis where
  scene_breakdown : List SceneDict
  rest : Nat

/-- The `global_style` block of a variant. -/
structure GlobalStyle where
  lighting : String
  music : String
  color_palette : String
  transitions : String
  energy_level : String

/-- A variant dict as built by `_create_variant`. -/
structure Variant where
  variant_level : String
  variant_name : String
  variant_description : String
  original_analysis : Analysis
  modified_scenes : List SceneDict
  global_style : GlobalStyle

/-- Embedding of `_create_variant` (src/modules/aggression_variants.py lines
49-84). -/
def create_variant (analysis : Analysis) (level : Level) (preset : Preset) :
    Variant :=
  { variant_level := levelStr level
    variant_name := preset.name
    variant_description := preset.description
    original_analysis := analysis
    modified_scenes :=
      analysis.scene_breakdown.map
        (fun scene => modify_scene scene preset (levelStr level))
    global_style :=
      { lighting := preset.lighting
        music := preset.music
        color_palette := preset.color_palette
        transitions := preset.transitions
        energy_level := preset.energy_level } }

/-- Embedding of `generate_variants` (src/modules/aggression_variants.py
lines 30-47): one variant per level, in the fixed order.  `presets` is
`self.presets` after `__init__`, which guarantees all four levels. -/
def generate_variants (presets : Level → Preset) (analysis : Analysis) :
    List Variant :=
  levels.map (fun level => create_variant analysis level (presets level))

/-- Embedding of `_get_default_presets` (src/modules/aggression_variants.py
lines 180-240). -/
def defaultPresets : Level → Preset
  | .soft =>
    { name := "Soft/Consultative"
      description := "Calm, educational, friendly approach"
      lighting := "Soft, warm, natural, gentle shadows"
      tone := "Friendly, educational, calm, reassuring"
      pacing := "Slower, thoughtful pauses, deliberate"
      camera_movement := "Gentle, smooth movements, comfortable distance"
      music := "Ambient, subtle, non-intrusive background"
      energy_level := "Low-medium, relaxed, conversational"
      color_palette := "Warm tones, soft pastels, inviting"
      transitions := "Slow fades, gentle dissolves"
      emotion_keywords := ["calm", "peaceful", "thoughtful", "gentle", "reassuring"] }
  | .medium =>
    { name := "Medium/Professional"
      description := "Confident, direct, balanced approach"
      lighting := "Balanced, clean, professional, clear definition"
      tone := "Confident, direct, clear, authoritative"
      pacing := "Moderate, steady rhythm, measured"
      camera_movement := "Standard movements, eye-level, stable"
      music := "Modern, present but not dominating, professional"
      energy_level := "Medium, professional, focused"
      color_palette := "Balanced colors, professional tones, crisp"
      transitions := "Clean cuts, simple transitions"
      emotion_keywords := ["confident", "professional", "clear", "focused", "authoritative"] }
  | .aggressive =>
    { name := "Aggressive/Urgent"
      description := "Urgent, intense, high-energy approach"
      lighting := "High contrast, dramatic, bold shadows"
      tone := "Urgent, intense, high energy, compelling"
      pacing := "Faster cuts, rapid delivery, momentum"
      camera_movement := "Dynamic movements, tight shots, energetic"
      music := "Driving, bold, attention-grabbing, pulsing"
      energy_level := "High, intense, urgent"
      color_palette := "Bold colors, high saturation, dramatic"
      transitions := "Quick cuts, dynamic transitions"
      emotion_keywords := ["urgent", "intense", "dynamic", "powerful", "compelling"] }
  | .ultra =>
    { name := "Ultra-Aggressive/Disruptive"
      description := "Confrontational, bold, impossible to ignore"
      lighting := "Bold, high energy, vibrant, extreme contrast"
      tone := "Confrontational, challenging, provocative, explosive"
      pacing := "Rapid cuts, no pause, constant momentum, relentless"
      camera_movement := "Handheld feel, fast zooms, intense, chaotic energy"
      music := "Loud, aggressive, overwhelming, can't ignore"
      energy_level := "Maximum, explosive, overwhelming"
      color_palette := "Vibrant, extreme saturation, shocking"
      transitions := "Jump cuts, smash cuts, aggressive"
      emotion_keywords := ["explosive", "confrontational", "shocking", "disruptive", "overwhelming"] }

/-! ### Heap model of the same functions, for the mutation claim

Python dicts are heap objects: `scene.copy()` allocates a fresh dict and
item assignment mutates only the assigned dict.  The store is the list of
all allocated scene dicts; a scene is an address into it, and `copy`
allocates at the end. -/

/-- The heap of scene dicts; an address is an index. -/
abbrev Store := List SceneDict

/-- Heap semantics of `_modify_scene`: `modified = scene.copy()` allocates a
fresh dict, and both item assignments write only to that fresh address;
`original_emotion` is read from the original scene. -/
def modify_scene_heap (st : Store) (a : Nat) (preset : Preset)
    (level : String) : Store × Nat :=
  let scene := st.getD a []
  let addr := st.length
  let st1 := st ++ [scene]
  let st2 := st1.set addr
    (sceneSet (st1.getD addr []) "aggression_modifiers" (.mods (mkModifiers preset)))
  let st3 := st2.set addr
    (sceneSet (st2.getD addr [])
      "emotion"
      (.str (adjust_emotion (sceneEmotion scene) preset.emotion_keywords level)))
  (st3, addr)

/-- Heap semantics of the scene loop of `_create_variant`: modify each scene
in order, collecting the addresses of the fresh modified dicts. -/
def create_variant_heap (st : Store) (sceneAddrs : List Nat) (preset : Preset)
    (level : String) : Store × List Nat :=
  sceneAddrs.foldl
    (fun acc a =>
      let r := modify_scene_heap acc.1 a preset level
      (r.1, acc.2 ++ [r.2]))
    (st, [])

/-- Heap semantics of `generate_variants`: one scene loop per level, in the
fixed order. -/
def generate_variants_heap (st : Store) (sceneAddrs : List Nat)
    (presets : Level → Preset) : Store × List (List Nat) :=
  levels.foldl
    (fun acc level =>
      let r := create_variant_heap acc.1 sceneAddrs (presets level) (levelStr level)
      (r.1, acc.2 ++ [r.2]))
    (st, [])

/-- A small concrete analysis used to instantiate proved theorems. -/
def sampleAnalysis : Analysis :=
  { scene_breakdown :=
      [[("scene_number", .other 1), ("emotion", .str "excited delivery")],
       [("scene_number", .other 2), ("emotion", .str "calm tone")]]
    rest := 0 }

end AggressionVariants

/-! ## `modules/prompt_validator.py` -/

namespace PromptValidator

def MAX_PROMPT_LENGTH : Nat := 2000
def MAX_CHARACTER_DESC : Nat := 150
def MAX_TEXT_OVERLAYS : Nat := 5
def MAX_AUDIO_CUES : Nat := 10

/-- The contradictory emotion pairs (src/modules/prompt_validator.py lines
19-25). -/
def CONTRADICTORY_EMOTIONS : List (String × String) :=
  [("frustrated", "excited"),
   ("calm", "explosive"),
   ("gentle", "confrontational"),
   ("relaxed", "urgent"),
   ("thoughtful", "impulsive")]

/-- Words forbidden in B-roll prompts (src/modules/prompt_validator.py lines
35-38); note the trailing spaces on the pronoun markers. -/
def BROLL_FORBIDDEN : List String :=
  ["person", "people", "man", "woman", "face", "character",
   "spokesperson", "actor", "he ", "she ", "human", "individual"]

/-- Python `len` on a string (character count). -/
def pyLen (s : String) : Nat := s.data.length

/-- `_check_length` (lines 83-96): each check returns the (warnings, errors)
it appends. `0.8 * 2000` is exactly `1600`, so the float comparison
`length > 1600.0` is `10 * length > 8 * MAX`. -/
def check_length (prompt : String) : List String × List String :=
  let length := pyLen prompt
  if length > MAX_PROMPT_LENGTH then
    ([],
     [s!"Prompt too long: {length} chars (max: {MAX_PROMPT_LENGTH}). Condense descriptions."])
  else if 10 * length > 8 * MAX_PROMPT_LENGTH then
    ([s!"Prompt near limit: {length} chars (max: {MAX_PROMPT_LENGTH}). Consider condensing."],
     [])
  else ([], [])

/-- `_check_emotions` (lines 98-107): one error per contradictory pair whose
both words occur in the lowercased prompt, in table order. -/
def check_emotions (prompt : String) : List String × List String :=
  let prompt_lower := pyLower prompt
  ([],
   CONTRADICTORY_EMOTIONS.filterMap (fun p =>
     if pyIn p.1 prompt_lower && pyIn p.2 prompt_lower then
       some (s!"Contradictory emotions detected: '{p.1}' and '{p.2}'. Use single coherent emotion.")
     else none))

/-- `_validate_character_prompt` (lines 109-121): three warnings, no error. -/
def validate_character_prompt (prompt : String) : List String × List String :=
  let lower := pyLower prompt
  let w1 :=
    if ["female", "male", "person", "age"].any (fun ind => pyIn ind lower) then []
    else ["No clear character description found. Add age, gender, key traits."]
  let w2 :=
    if ["camera", "shot", "dolly", "push", "pan"].any (fun word => pyIn word lower) then []
    else ["No camera direction specified. Add camera movement for visual interest."]
  let w3 :=
    if pyIn "\"" prompt then []
    else ["No quoted script found. Include dialogue for clarity."]
  (w1 ++ w2 ++ w3, [])

/-- `_validate_broll_prompt` (lines 123-141): an error listing every
forbidden people reference found, and a visual-storytelling warning. -/
def validate_broll_prompt (prompt : String) : List String × List String :=
  let prompt_lower := pyLower prompt
  let found_people_refs :=
    BROLL_FORBIDDEN.filter (fun forbidden => pyIn forbidden prompt_lower)
  let errs :=
    if found_people_refs.isEmpty then []
    else
      let refs := String.intercalate ", " found_people_refs
      [s!"B-roll contains people references: {refs}. B-roll must have NO people visible (Sora limitation)."]
  let w :=
    if ["visual", "show", "reveal", "camera", "footage"].any
        (fun word => pyIn word prompt_lower) then []
    else ["Limited visual storytelling. Add more cinematic description."]
  (w, errs)

/-- `_check_required_elements` (lines 143-157): warnings only. -/
def check_required_elements (prompt : String) : List String × List String :=
  let prompt_lower := pyLower prompt
  let w1 :=
    if !(pyIn "duration" prompt_lower) && !(pyIn "12 second" prompt_lower) then
      ["No duration specified. Add 'Duration: 12 seconds'."]
    else []
  let w2 :=
    if !(pyIn "style" prompt_lower) then
      ["No style specified. Add visual style description."]
    else []
  let w3 :=
    if !(pyIn "quality" prompt_lower) && !(pyIn "4k" prompt_lower) then
      ["No quality specified. Add '4K' or quality descriptor."]
    else []
  (w1 ++ w2 ++ w3, [])

/-- Greedy `\d+`: the leading digit run and the remainder. -/
def takeDigits : List Char → List Char × List Char
  | [] => ([], [])
  | c :: rest =>
    if c.isDigit then
      let p := takeDigits rest
      (c :: p.1, p.2)
    else ([], c :: rest)

/-- Lazy `.*?t`: consume up to and including the first occurrence of the
target character, failing at a newline (`.` does not match `\n`) or at the
end; returns the number of characters consumed. -/
def lazyThrough (target : Char) : List Char → Option (Nat × List Char)
  | [] => none
  | c :: rest =>
    if c == target then some (1, rest)
    else if c == '\n' then none
    else
      match lazyThrough target rest with
      | some p => some (p.1 + 1, p.2)
      | none => none

/-- One match attempt of `at \d+:\d+.*?:.*?".*?"` (the text-overlay pattern
of `_check_text_overlays`, line 164) at the head of `l`, returning the
number of characters consumed.  Because `.` cannot cross a newline, failure
at the first lazy candidate implies failure at every later one, so first
candidates suffice. -/
def matchOverlayPat (l : List Char) : Option {n : Nat // 0 < n} :=
  match l with
  | 'a' :: 't' :: ' ' :: r1 =>
    match takeDigits r1 with
    | (d1, r2) =>
      if d1.isEmpty then none
      else
        match r2 with
        | ':' :: r3 =>
          match takeDigits r3 with
          | (d2, r4) =>
            if d2.isEmpty then none
            else
              match lazyThrough ':' r4 with
              | none => none
              | some p1 =>
                match lazyThrough '"' p1.2 with
                | none => none
                | some p2 =>
                  match lazyThrough '"' p2.2 with
                  | none => none
                  | some p3 =>
                    some ⟨3 + d1.length + 1 + d2.length + p1.1 + p2.1 + p3.1,
                      by omega⟩
        | _ => none
  | _ => none

/-- `re.findall` count for the overlay pattern: scan left to right,
continuing after the end of each (non-empty) match.  `fuel` only forces
structural recursion; each step consumes at least one character. -/
def countOverlayAux (fuel : Nat) (l : List Char) : Nat :=
  match fuel, l with
  | 0, _ => 0
  | _, [] => 0
  | fuel + 1, c :: rest =>
    match matchOverlayPat (c :: rest) with
    | some n => 1 + countOverlayAux fuel ((c :: rest).drop n.1)
    | none => countOverlayAux fuel rest

def countOverlayMatches (l : List Char) : Nat :=
  countOverlayAux l.length l

/-- The ` (\d+:\d+)` tail shared by the timing patterns: a space, then the
two captured digit runs, returning them and the consumed count. -/
def parseSpaceTiming : List Char → Option (List Char × List Char × Nat)
  | ' ' :: r1 =>
    match takeDigits r1 with
    | (d1, r2) =>
      if d1.isEmpty then none
      else
        match r2 with
        | ':' :: r3 =>
          match takeDigits r3 with
          | (d2, _) =>
            if d2.isEmpty then none
            else some (d1, d2, 1 + d1.length + 1 + d2.length)
        | _ => none
  | _ => none

/-- One match attempt of `at (\d+:\d+)` (line 173) at the head of `l`. -/
def matchTextTiming (l : List Char) :
    Option (List Char × List Char × {n : Nat // 0 < n}) :=
  if isPrefixL "at".data l then
    (parseSpaceTiming (l.drop 2)).map
      (fun p => (p.1, p.2.1, ⟨2 + p.2.2, by omega⟩))
  else none

/-- `re.findall(r'at (\d+:\d+)', ...)`: all captured `(mins, secs)` digit
groups, scanning left to right past each match (`fuel` as above). -/
def findTextTimingsAux (fuel : Nat) (l : List Char) :
    List (List Char × List Char) :=
  match fuel, l with
  | 0, _ => []
  | _, [] => []
  | fuel + 1, c :: rest =>
    match matchTextTiming (c :: rest) with
    | some r => (r.1, r.2.1) :: findTextTimingsAux fuel ((c :: rest).drop r.2.2.1)
    | none => findTextTimingsAux fuel rest

def findTextTimings (l : List Char) : List (List Char × List Char) :=
  findTextTimingsAux l.length l

/-- One match attempt of `(?:at|from|start) (\d+:\d+)` (line 186); the three
alternatives start with distinct characters, so a plain first-fit chain is
the regex's left-to-right alternation. -/
def matchAudioTiming (l : List Char) :
    Option (List Char × List Char × {n : Nat // 0 < n}) :=
  if isPrefixL "at".data l then
    (parseSpaceTiming (l.drop 2)).map
      (fun p => (p.1, p.2.1, ⟨2 + p.2.2, by omega⟩))
  else if isPrefixL "from".data l then
    (parseSpaceTiming (l.drop 4)).map
      (fun p => (p.1, p.2.1, ⟨4 + p.2.2, by omega⟩))
  else if isPrefixL "start".data l then
    (parseSpaceTiming (l.drop 5)).map
      (fun p => (p.1, p.2.1, ⟨5 + p.2.2, by omega⟩))
  else none

/-- `re.findall(r'(?:at|from|start) (\d+:\d+)', ...)` (`fuel` as above). -/
def findAudioTimingsAux (fuel : Nat) (l : List Char) :
    List (List Char × List Char) :=
  match fuel, l with
  | 0, _ => []
  | _, [] => []
  | fuel + 1, c :: rest =>
    match matchAudioTiming (c :: rest) with
    | some r => (r.1, r.2.1) :: findAudioTimingsAux fuel ((c :: rest).drop r.2.2.1)
    | none => findAudioTimingsAux fuel rest

def findAudioTimings (l : List Char) : List (List Char × List Char) :=
  findAudioTimingsAux l.length l

/-- Python `int` on a run of decimal digits. -/
def digitsToNat (ds : List Char) : Nat :=
  ds.foldl (fun acc c => acc * 10 + (c.toNat - 48)) 0

/-- `_check_text_overlays` (lines 159-181): overlay-density error and
per-timing range errors.  The patterns carry `re.IGNORECASE`, and every
case-carrying literal in them is lowercase, so they are scanned over the
lowercased prompt. -/
def check_text_overlays (prompt : String) : List String × List String :=
  let lower := pyLower prompt
  let text_count :=
    pyCount lower "text " + pyCount lower "overlay"
      + countOverlayMatches lower.data
  let e1 :=
    if text_count > MAX_TEXT_OVERLAYS then
      [s!"Too many text overlays: {text_count} (max: {MAX_TEXT_OVERLAYS}). Reduce text for readability."]
    else []
  let e2 :=
    (findTextTimings lower.data).filterMap (fun tm =>
      let mins := digitsToNat tm.1
      let secs := digitsToNat tm.2
      if mins > 0 || secs > 12 then
        let raw := String.mk (tm.1 ++ ':' :: tm.2)
        some (s!"Invalid text timing: {raw}. Must be within 0:00-0:12 range.")
      else none)
  ([], e1 ++ e2)

/-- `_check_audio_timing` (lines 183-209): warnings only.  `times.sort()` on
integers is order-insensitive, embedded as insertion sort. -/
def check_audio_timing (prompt : String) : List String × List String :=
  let lower := pyLower prompt
  let audio_timings := findAudioTimings lower.data
  let w1 :=
    if audio_timings.length > MAX_AUDIO_CUES then
      let count := audio_timings.length
      [s!"Many audio cues: {count}. May sound cluttered."]
    else []
  let times :=
    audio_timings.map (fun tm => digitsToNat tm.1 * 60 + digitsToNat tm.2)
  let sorted := List.insertionSort (· ≤ ·) times
  let w2 :=
    (sorted.zip sorted.tail).filterMap (fun t =>
      if t.2 < t.1 + 1 then
        let t1 := t.1
        let t2 := t.2
        some (s!"Audio cues very close together ({t1}s and {t2}s). May sound rushed.")
      else none)
  (w1 ++ w2, [])

/-- Is `pat` present twice on one line (`pat.*pat`, `.` not crossing a
newline)?  Mirrors `re.search` of the jarring-transition patterns. -/
def followedOnSameLine (pat : List Char) : List Char → Bool
  | [] => false
  | c :: rest =>
    isPrefixL pat (c :: rest) || (c != '\n' && followedOnSameLine pat rest)

/-- One doubled occurrence anywhere: some position starts `pat` and another
`pat` begins later on the same line. -/
def hasDoubledPattern (pat : List Char) : List Char → Bool
  | [] => false
  | c :: rest =>
    (isPrefixL pat (c :: rest)
      && followedOnSameLine pat ((c :: rest).drop pat.length))
      || hasDoubledPattern pat rest

/-- `_check_shot_transitions` (lines 211-226): warnings only. -/
def check_shot_transitions (prompt : String) : List String × List String :=
  let lower := pyLower prompt
  let jarring : List (String × String) :=
    [("extreme close-up", "Two extreme close-ups in sequence"),
     ("whip pan", "Multiple whip pans in sequence"),
     ("crash zoom", "Multiple crash zooms in sequence")]
  (jarring.filterMap (fun p =>
    if hasDoubledPattern p.1.data lower.data then
      some (s!"Potentially jarring transition: {p.2}. Vary shot types for better flow.")
    else none), [])

/-- The `scene_info` dict as `validate_prompt` reads it: `has_character`
may be absent (`.get('has_character', True)`). -/
structure SceneInfo where
  has_character : Option Bool
  purpose : String

/-- Embedding of `validate_prompt` (src/modules/prompt_validator.py lines
44-81): run every check in source order, collecting warnings and errors;
`is_valid` is `len(errors) == 0`. -/
def validate_prompt (prompt : String) (scene_info : SceneInfo) :
    Bool × List String × List String :=
  let r1 := check_length prompt
  let r2 := check_emotions prompt
  let r3 :=
    if scene_info.has_character.getD true then
      validate_character_prompt prompt
    else validate_broll_prompt prompt
  let r4 := check_required_elements prompt
  let r5 := check_text_overlays prompt
  let r6 := check_audio_timing prompt
  let r7 := check_shot_transitions prompt
  let warnings := r1.1 ++ r2.1 ++ r3.1 ++ r4.1 ++ r5.1 ++ r6.1 ++ r7.1
  let errors := r1.2 ++ r2.2 ++ r3.2 ++ r4.2 ++ r5.2 ++ r6.2 ++ r7.2
  (errors.isEmpty, warnings, errors)

/-- One entry of the `prompts` list handed to `validate_all_prompts`; every
field is read with a `.get` default. -/
structure PromptData where
  prompt : Option String
  has_character : Option Bool
  purpose : Option String

/-- One entry of the report's `scene_reports`. -/
structure SceneReport where
  scene_number : Nat
  valid : Bool
  warnings : List String
  errors : List String
  prompt_length : Nat

/-- The aggregate report of `validate_all_prompts`. -/
structure Report where
  total_prompts : Nat
  valid : Nat
  invalid : Nat
  warnings_count : Nat
  errors_count : Nat
  scene_reports : List SceneReport

/-- Embedding of `validate_all_prompts` (src/modules/prompt_validator.py
lines 228-274): scenes are numbered from 1 in list order; `has_character`
defaults to `True` when absent. -/
def validate_all_prompts (prompts : List PromptData) : Report :=
  prompts.enum.foldl
    (fun acc ip =>
      let i := ip.1 + 1
      let prompt_data := ip.2
      let prompt := prompt_data.prompt.getD ""
      let scene_info : SceneInfo :=
        { has_character := some (prompt_data.has_character.getD true)
          purpose := prompt_data.purpose.getD "" }
      let r := validate_prompt prompt scene_info
      { total_prompts := acc.total_prompts
        valid := acc.valid + (if r.1 then 1 else 0)
        invalid := acc.invalid + (if r.1 then 0 else 1)
        warnings_count := acc.warnings_count + r.2.1.length
        errors_count := acc.errors_count + r.2.2.length
        scene_reports := acc.scene_reports ++
          [{ scene_number := i
             valid := r.1
             warnings := r.2.1
             errors := r.2.2
             prompt_length := pyLen prompt }] })
    { total_prompts := prompts.length
      valid := 0
      invalid := 0
      warnings_count := 0
      errors_count := 0
      scene_reports := [] }

end PromptValidator

/-! ## `modules/sora_prompt_builder.py` -/

namespace SoraPromptBuilder

/-- A scene of a variant, as far as `build_all_scene_prompts` reads it
(every field via `.get` with default); other fields are opaque. -/
structure SceneP where
  scene_number : Option Nat
  timestamp : Option String
  purpose : Option String
  has_character : Option Bool
  rest : Nat

/-- A variant, as read by `build_all_scene_prompts` (`variant
['modified_scenes']`); the style fields only feed the prompt text and are
opaque here. -/
structure VariantP where
  modified_scenes : List SceneP
  rest : Nat

/-- One record of `build_all_scene_prompts`' output. -/
structure PromptRecord where
  scene_number : Option Nat
  timestamp : Option String
  purpose : Option String
  prompt : String
  script_segment : String
  has_character : Bool

/-- Python `str.strip()`. -/
def pyStrip (s : String) : String :=
  ⟨((s.data.dropWhile Char.isWhitespace).reverse.dropWhile
      Char.isWhitespace).reverse⟩

/-- `re.split(r'(?<=[.!?])\s+', text)`: cut at each maximal whitespace run
directly preceded by `.`, `!` or `?`, consuming the run.  `acc` holds the
current token reversed (so its head is the previous character); `fuel` only
forces structural recursion and never runs out at `l.length`. -/
def sentenceSplitAux (fuel : Nat) (acc : List Char) (l : List Char) :
    List (List Char) :=
  match fuel, l with
  | 0, _ => [acc.reverse]
  | _, [] => [acc.reverse]
  | fuel + 1, c :: rest =>
    if c.isWhitespace
        && (match acc with
            | p :: _ => p == '.' || p == '!' || p == '?'
            | [] => false) then
      acc.reverse :: sentenceSplitAux fuel [] (rest.dropWhile Char.isWhitespace)
    else sentenceSplitAux fuel (c :: acc) rest

/-- The sentence list `re.split(r'(?<=[.!?])\s+', script.strip())`. -/
def pySplitSentences (script : String) : List String :=
  let stripped := pyStrip script
  (sentenceSplitAux stripped.data.length [] stripped.data).map
    (fun cs => (⟨cs⟩ : String))

/-- Python `' '.join(xs)`. -/
def joinSp (xs : List String) : String := String.intercalate " " xs

/-- Embedding of `_split_script_intelligently`
(src/modules/sora_prompt_builder.py lines 317-357): split the script into
sentences; with exactly one scene return `[script]` (the whole script);
otherwise distribute sentences per scene, one extra for hook/cta purposes
and one extra for the first `remainder` scenes, appending any leftover
sentences to the last part. -/
def split_script_intelligently (script : String) (scenes : List SceneP) :
    List String :=
  let sentences := pySplitSentences script
  if scenes.length = 1 then [script]
  else
    let scene_purposes := scenes.map (fun s => s.purpose.getD "")
    let sentences_per_scene := sentences.length / scenes.length
    let remainder := sentences.length % scenes.length
    let res := scene_purposes.enum.foldl
      (fun (acc : List String × Nat) ip =>
        let i := ip.1
        let purpose := ip.2
        let count0 :=
          if pyIn "hook" (pyLower purpose) || pyIn "cta" (pyLower purpose) then
            sentences_per_scene + 1
          else sentences_per_scene
        let count := if i < remainder then count0 + 1 else count0
        let scene_sentences := (sentences.drop acc.2).take count
        (acc.1 ++ [joinSp scene_sentences], acc.2 + count))
      ([], 0)
    let parts := res.1
    let idx := res.2
    if idx < sentences.length then
      parts.dropLast
        ++ [parts.getLastD "" ++ " " ++ joinSp (sentences.drop idx)]
    else parts

/-- Embedding of `build_all_scene_prompts`
(src/modules/sora_prompt_builder.py lines 276-315).  The per-scene prompt
text is produced by `build_scene_prompt`, which does not influence the
script segmentation these claims are about; it is passed in as the
`buildScene` parameter and applied exactly where the source calls it. -/
def build_all_scene_prompts
    (buildScene : SceneP → VariantP → String → String → String)
    (variant : VariantP) (spokesperson_description : String)
    (full_script : String) : List PromptRecord :=
  let scenes := variant.modified_scenes
  let script_parts := split_script_intelligently full_script scenes
  scenes.enum.map (fun ip =>
    let i := ip.1
    let scene := ip.2
    let script_segment :=
      if i < script_parts.length then script_parts.getD i "" else full_script
    { scene_number := scene.scene_number
      timestamp := scene.timestamp
      purpose := scene.purpose
      prompt := buildScene scene variant spokesperson_description script_segment
      script_segment := script_segment
      has_character := scene.has_character.getD true })

/-- A concrete one-scene variant used to instantiate proved theorems. -/
def sampleSingleSceneVariant : VariantP :=
  { modified_scenes :=
      [{ scene_number := some 1
         timestamp := none
         purpose := some "hook"
         has_character := some true
         rest := 0 }]
    rest := 0 }

end SoraPromptBuilder

/-! ## `modules/sora_client.py`

`generate_variant_parallel` talks to the remote backend three ways: job
submission (`create_video`, which may raise), status polling, and artifact
download.  The backend is a parameter of the embedding: `submit i` is the
result of submitting prompt `i` (a job id, or the exception
`create_video` re-raises); `outcome i` is the terminal outcome the poll
loop eventually observes for job `i` (with the download folded into a
completed outcome's path); and `order` is the order in which the poll loop
observes the jobs reach their terminal states.  Every run of the source's
poll loop removes each job from the pending set exactly once, appending
one result entry at that moment, so its `completed_videos` list is
`order.map …` for exactly one permutation `order` of the job indices. -/

namespace SoraClient

/-- One scene-prompt dictionary, as read by the coordinator. -/
structure ScenePrompt where
  scene_number : Nat
  prompt : String
deriving DecidableEq

/-- The terminal outcome the poll loop observes for one job. -/
inductive JobOutcome where
  | completed (video_path : String) (cloud_url : Option String)
  | failed (error : Option String)
deriving DecidableEq

/-- One entry of the coordinator's `jobs` list (fan-out phase). -/
structure Job where
  job_id : String
  scene_number : Nat
  scene_data : ScenePrompt
deriving DecidableEq

/-- One entry of `completed_videos`: the source appends a dict with
`video_path`/`cloud_url`/`job_id` on completion and a dict with
`status: 'failed'`/`error` on failure. -/
inductive ResultEntry where
  | completedE (scene_number : Nat) (video_path : String)
      (cloud_url : Option String) (job_id : String)
  | failedE (scene_number : Nat) (error : Option String)
deriving DecidableEq

/-- The `scene_number` key both entry shapes carry (the sort key). -/
def ResultEntry.sceneNumber : ResultEntry → Nat
  | .completedE n _ _ _ => n
  | .failedE n _ => n

/-- The dictionary `generate_variant_parallel` returns. -/
structure VariantResult where
  variant_name : String
  variant_dir : String
  scenes : List ResultEntry
  total_scenes : Nat
  success : Bool
deriving DecidableEq

/-- `Config.VIDEOS_DIR`, as a path string. -/
def VIDEOS_DIR : String := "videos"

/-- The fan-out loop (src/modules/sora_client.py lines 261-270): submit one
job per prompt in order; the first submission exception aborts the loop
(and the whole call) — jobs already submitted are not cancelled, but no
result is returned for them. -/
def startJobs (submit : Nat → Except String String) (i : Nat) :
    List ScenePrompt → Except String (List Job)
  | [] => .ok []
  | scene_data :: rest =>
    match submit i with
    | .error e => .error e
    | .ok job_id =>
      match startJobs submit (i + 1) rest with
      | .error e => .error e
      | .ok jobs =>
        .ok ({ job_id := job_id
               scene_number := scene_data.scene_number
               scene_data := scene_data } :: jobs)

/-- The entry the poll loop appends when job `job` reaches `oc`
(src/modules/sora_client.py lines 285-311). -/
def mkEntry (job : Job) (oc : JobOutcome) : ResultEntry :=
  match oc with
  | .completed video_path cloud_url =>
    .completedE job.scene_number video_path cloud_url job.job_id
  | .failed error => .failedE job.scene_number error

/-- Embedding of `generate_variant_parallel` (src/modules/sora_client.py
lines 241-334): fan-out, poll to terminal states (producing one entry per
job in observation order `order`), sort by `scene_number` (Python's stable
`list.sort`, embedded as insertion sort), and wrap up with the
`success` flag `all(v.get('status') != 'failed')`. -/
def generate_variant_parallel (submit : Nat → Except String String)
    (outcome : Nat → JobOutcome) (order : List Nat)
    (scene_prompts : List ScenePrompt) (variant_name : String) :
    Except String VariantResult :=
  match startJobs submit 0 scene_prompts with
  | .error e => .error e
  | .ok jobs =>
    let completed_videos := order.map (fun i =>
      mkEntry (jobs.getD i { job_id := "", scene_number := 0,
                             scene_data := { scene_number := 0, prompt := "" } })
        (outcome i))
    let sorted := List.insertionSort
      (fun a b => a.sceneNumber ≤ b.sceneNumber) completed_videos
    .ok { variant_name := variant_name
          variant_dir := VIDEOS_DIR ++ "/" ++ variant_name
          scenes := sorted
          total_scenes := sorted.length
          success := sorted.all (fun v =>
            match v with
            | .failedE _ _ => false
            | _ => true) }

end SoraClient

namespace Utils

theorem dictGet_dictSet (d : List (String × PyVal)) (k : String) (v : PyVal) :
    dictGet (dictSet d k v) k = some v := by
  induction d with
  | nil => simp [dictGet, dictSet, List.find?]
  | cons hd tl ih =>
    by_cases h : hd.1 == k
    · simp [dictGet, dictSet, List.find?, h]
    · obtain ⟨k', v'⟩ := hd
      simp only at h
      simp only [dictSet, h, Bool.false_eq_true, if_false]
      simpa [dictGet, List.find?, h] using ih

end Utils

/-- C8: `normalize_spokesperson` always returns a single record without
raising: the first element when `spokesperson` is a non-empty list, an empty
record for an empty list, the record itself (unchanged) when it is already a
single record; hence normalizing an already-normalized document is the
identity (idempotent). -/
theorem c8_normalize_spokesperson (a : List (String × Utils.PyVal)) :
    (∀ r rest, Utils.dictGet a "spokesperson" = some (.list (r :: rest)) →
        Utils.normalize_spokesperson a = r)
    ∧ (Utils.dictGet a "spokesperson" = some (.list []) →
        Utils.normalize_spokesperson a = .dict [])
    ∧ (∀ r, Utils.dictGet a "spokesperson" = some (.dict r) →
        Utils.normalize_spokesperson a = .dict r)
    ∧ (∀ r, Utils.normalize_spokesperson a = .dict r →
        Utils.normalize_spokesperson
          (Utils.dictSet a "spokesperson" (Utils.normalize_spokesperson a)) =
          Utils.normalize_spokesperson a) := by
  refine ⟨?_, ?_, ?_, ?_⟩
  · intro r rest h
    simp [Utils.normalize_spokesperson, h]
  · intro h
    simp [Utils.normalize_spokesperson, h]
  · intro r h
    simp [Utils.normalize_spokesperson, h]
  · intro r h
    rw [h]
    simp [Utils.normalize_spokesperson, Utils.dictGet_dictSet, h]

/-- Witness for C8: concrete evaluations discharging each hypothesis. -/
theorem c8_normalize_spokesperson_witness :
    Utils.normalize_spokesperson
        [("spokesperson", .list [.dict [("gender", .str "female")]])] =
      .dict [("gender", .str "female")]
    ∧ Utils.normalize_spokesperson [("spokesperson", .list [])] = .dict []
    ∧ Utils.normalize_spokesperson
        [("spokesperson", .dict [("age_range", .str "30s")])] =
      .dict [("age_range", .str "30s")]
    ∧ Utils.normalize_spokesperson
        (Utils.dictSet [("spokesperson", .dict [("age_range", .str "30s")])]
          "spokesperson"
          (Utils.normalize_spokesperson
            [("spokesperson", .dict [("age_range", .str "30s")])])) =
      Utils.normalize_spokesperson
        [("spokesperson", .dict [("age_range", .str "30s")])] := by
  refine ⟨?_, ?_, ?_, ?_⟩
  · exact (c8_normalize_spokesperson _).1 _ _ rfl
  · exact (c8_normalize_spokesperson _).2.1 rfl
  · exact (c8_normalize_spokesperson _).2.2.1 _ rfl
  · exact (c8_normalize_spokesperson _).2.2.2 _ rfl

namespace AggressionVariants

theorem sceneGet_sceneSet_self (d : SceneDict) (k : String) (v : SVal) :
    sceneGet (sceneSet d k v) k = some v := by
  induction d with
  | nil => simp [sceneGet, sceneSet, List.find?]
  | cons hd tl ih =>
    obtain ⟨k', v'⟩ := hd
    by_cases h : k' == k
    · have hk : k' = k := by simpa using h
      subst hk
      simp [sceneGet, sceneSet, List.find?]
    · simp only [sceneSet, h, Bool.false_eq_true, if_false]
      simpa [sceneGet, List.find?, h] using ih

theorem sceneGet_sceneSet_ne (d : SceneDict) (k k' : String) (v : SVal)
    (h : k' ≠ k) :
    sceneGet (sceneSet d k v) k' = sceneGet d k' := by
  induction d with
  | nil =>
    have hne : (k == k') = false := by
      simpa using fun he => h he.symm
    simp [sceneGet, sceneSet, List.find?, hne]
  | cons hd tl ih =>
    obtain ⟨k0, v0⟩ := hd
    by_cases hk : k0 == k
    · have hk0 : k0 = k := by simpa using hk
      subst hk0
      have hne : (k0 == k') = false := by
        simpa using fun he => h he.symm
      simp [sceneGet, sceneSet, List.find?, hne]
    · simp only [sceneSet, hk, Bool.false_eq_true, if_false]
      by_cases hk' : k0 == k'
      · simp [sceneGet, List.find?, hk']
      · simpa [sceneGet, List.find?, hk'] using ih

theorem sceneGet_modify_scene_of_ne (sc : SceneDict) (preset : Preset)
    (level : String) (k : String) (h1 : k ≠ "aggression_modifiers")
    (h2 : k ≠ "emotion") :
    sceneGet (modify_scene sc preset level) k = sceneGet sc k := by
  unfold modify_scene
  rw [sceneGet_sceneSet_ne _ _ _ _ h2, sceneGet_sceneSet_ne _ _ _ _ h1]

theorem create_variant_shape (analysis : Analysis) (level : Level)
    (preset : Preset) :
    (create_variant analysis level preset).modified_scenes.length
        = analysis.scene_breakdown.length
    ∧ ∀ i : Nat,
        ((create_variant analysis level preset).modified_scenes[i]?.bind
          (fun sc => sceneGet sc "scene_number"))
        = (analysis.scene_breakdown[i]?.bind
          (fun sc => sceneGet sc "scene_number")) := by
  constructor
  · simp [create_variant]
  · intro i
    simp only [create_variant, List.getElem?_map]
    cases analysis.scene_breakdown[i]? with
    | none => rfl
    | some sc =>
      simp only [Option.map_some', Option.bind_some]
      exact sceneGet_modify_scene_of_ne sc preset (levelStr level)
        "scene_number" (by decide) (by decide)

theorem find?_map_fst {l : List (String × String)} {pred : String → Bool}
    {b : String} (h : (l.map Prod.fst).find? pred = some b) :
    ∃ v, l.find? (fun q => pred q.1) = some (b, v) ∧ l.lookup b = some v := by
  induction l with
  | nil => simp at h
  | cons hd tl ih =>
    obtain ⟨k, v0⟩ := hd
    by_cases hp : pred k
    · simp only [List.map_cons, List.find?, hp] at h
      have hb : b = k := by simpa using h.symm
      subst hb
      exact ⟨v0, by simp [List.find?, hp], by simp [List.lookup]⟩
    · simp only [List.map_cons, List.find?, hp] at h
      obtain ⟨v, hf, hl⟩ := ih h
      have hbp : pred b = true := List.find?_some h
      have hbk : (b == k) = false := by
        simp only [beq_eq_false_iff_ne, ne_eq]
        intro he
        rw [he] at hbp
        exact absurd hbp (by simp [hp])
      refine ⟨v, ?_, ?_⟩
      · simp [List.find?, hp, hf]
      · simp [List.lookup, hbk, hl]

theorem emotion_map_keys (level : Level) :
    (emotion_map (levelStr level)).map Prod.fst = baseEmotions := by
  cases level <;> rfl

theorem set_append_singleton {α : Type} (l : List α) (d x : α) :
    (l ++ [d]).set l.length x = l ++ [x] := by
  induction l with
  | nil => rfl
  | cons a t ih => simp [List.set, ih]

theorem getD_append_length {α : Type} (l : List α) (d e : α) :
    (l ++ [d]).getD l.length e = d := by
  simp [List.getD, List.getElem?_concat_length]

theorem modify_scene_heap_eq (st : Store) (a : Nat) (preset : Preset)
    (level : String) :
    modify_scene_heap st a preset level
      = (st ++ [modify_scene (st.getD a []) preset level], st.length) := by
  unfold modify_scene_heap modify_scene
  simp only [getD_append_length, set_append_singleton]

theorem foldl_store_extends {α β : Type} (g : Store × β → α → Store × β)
    (hg : ∀ s a, ∃ ext, (g s a).1 = s.1 ++ ext) :
    ∀ (l : List α) (st : Store) (b : β),
      ∃ ext, (l.foldl g (st, b)).1 = st ++ ext := by
  intro l
  induction l with
  | nil => intro st b; exact ⟨[], by simp⟩
  | cons a t ih =>
    intro st b
    obtain ⟨e1, h1⟩ := hg (st, b) a
    obtain ⟨e2, h2⟩ := ih (g (st, b) a).1 (g (st, b) a).2
    refine ⟨e1 ++ e2, ?_⟩
    have hfold : (List.foldl g (st, b) (a :: t)).1
        = (List.foldl g ((g (st, b) a).1, (g (st, b) a).2) t).1 := by
      simp [List.foldl]
    rw [hfold, h2, h1, List.append_assoc]

theorem create_variant_heap_extends (st : Store) (addrs : List Nat)
    (preset : Preset) (level : String) :
    ∃ ext, (create_variant_heap st addrs preset level).1 = st ++ ext := by
  exact foldl_store_extends _
    (fun s a => ⟨[modify_scene (s.1.getD a []) preset level],
      by simp [modify_scene_heap_eq]⟩) addrs st []

theorem generate_variants_heap_extends (st : Store) (addrs : List Nat)
    (presets : Level → Preset) :
    ∃ ext, (generate_variants_heap st addrs presets).1 = st ++ ext := by
  exact foldl_store_extends _
    (fun s level => by
      obtain ⟨e, he⟩ :=
        create_variant_heap_extends s.1 addrs (presets level) (levelStr level)
      exact ⟨e, he⟩) levels st []

end AggressionVariants

/-- C3: for any analysis with K scenes, `generate_variants` returns exactly
4 variants, with `variant_level` soft, medium, aggressive, ultra in that
fixed order, and each variant's `modified_scenes` has exactly K entries in
the same order as the input `scene_breakdown` (per-index scene numbers are
preserved). -/
theorem c3_generate_variants_shape
    (presets : AggressionVariants.Level → AggressionVariants.Preset)
    (analysis : AggressionVariants.Analysis) :
    (AggressionVariants.generate_variants presets analysis).length = 4
    ∧ (AggressionVariants.generate_variants presets analysis).map
        (fun v => v.variant_level) = ["soft", "medium", "aggressive", "ultra"]
    ∧ ∀ v ∈ AggressionVariants.generate_variants presets analysis,
        v.modified_scenes.length = analysis.scene_breakdown.length
        ∧ ∀ i : Nat,
          (v.modified_scenes[i]?.bind
            (fun sc => AggressionVariants.sceneGet sc "scene_number"))
          = (analysis.scene_breakdown[i]?.bind
            (fun sc => AggressionVariants.sceneGet sc "scene_number")) := by
  refine ⟨rfl, rfl, ?_⟩
  intro v hv
  simp only [AggressionVariants.generate_variants, AggressionVariants.levels,
    List.map_cons, List.map_nil, List.mem_cons, List.not_mem_nil,
    or_false] at hv
  rcases hv with rfl | rfl | rfl | rfl <;>
    exact AggressionVariants.create_variant_shape analysis _ _

/-- Witness for C3: the soft variant of a concrete 2-scene analysis has 2
modified scenes with the scene numbers preserved per index. -/
theorem c3_generate_variants_shape_witness :
    (AggressionVariants.create_variant AggressionVariants.sampleAnalysis
        .soft (AggressionVariants.defaultPresets .soft)).modified_scenes.length
      = AggressionVariants.sampleAnalysis.scene_breakdown.length := by
  have h := (c3_generate_variants_shape AggressionVariants.defaultPresets
      AggressionVariants.sampleAnalysis).2.2
    (AggressionVariants.create_variant AggressionVariants.sampleAnalysis
      .soft (AggressionVariants.defaultPresets .soft))
    (by simp [AggressionVariants.generate_variants, AggressionVariants.levels])
  exact h.1

/-- C4: for every scene and aggression level, the modified scene's `emotion`
comes from the coherent emotion remap: when the lowercased original emotion
contains a base emotion word, the result is that (first-matching) word's
level-specific translation; when none matches, the result is the preset's
first emotion keyword (with `'confident'` as the empty-list fallback); the
result is always drawn from the translation table or the keyword fallback,
never computed from the raw original text, and `_modify_scene` stores
exactly this remapped emotion. -/
theorem c4_adjust_emotion_coherent_remap (original : String)
    (kw : List String) (level : AggressionVariants.Level) :
    (∀ b, AggressionVariants.baseEmotions.find?
          (fun x => pyIn x (pyLower original)) = some b →
        some (AggressionVariants.adjust_emotion original kw
            (AggressionVariants.levelStr level))
          = (AggressionVariants.emotion_map
              (AggressionVariants.levelStr level)).lookup b)
    ∧ ((∀ x ∈ AggressionVariants.baseEmotions,
          pyIn x (pyLower original) = false) →
        AggressionVariants.adjust_emotion original kw
            (AggressionVariants.levelStr level) = kw.headD "confident")
    ∧ (AggressionVariants.adjust_emotion original kw
          (AggressionVariants.levelStr level)
          ∈ (AggressionVariants.emotion_map
              (AggressionVariants.levelStr level)).map Prod.snd
        ∨ AggressionVariants.adjust_emotion original kw
            (AggressionVariants.levelStr level) = kw.headD "confident")
    ∧ (∀ (scene : AggressionVariants.SceneDict)
          (preset : AggressionVariants.Preset),
        AggressionVariants.sceneGet
            (AggressionVariants.modify_scene scene preset
              (AggressionVariants.levelStr level)) "emotion"
          = some (.str (AggressionVariants.adjust_emotion
              (AggressionVariants.sceneEmotion scene)
              preset.emotion_keywords (AggressionVariants.levelStr level)))) := by
  refine ⟨?_, ?_, ?_, ?_⟩
  · intro b hb
    rw [← AggressionVariants.emotion_map_keys level] at hb
    obtain ⟨v, hf, hl⟩ := AggressionVariants.find?_map_fst hb
    rw [hl]
    simp only [AggressionVariants.adjust_emotion, hf]
  · intro hall
    have hnone : (AggressionVariants.emotion_map
        (AggressionVariants.levelStr level)).find?
          (fun p => pyIn p.1 (pyLower original)) = none := by
      rw [List.find?_eq_none]
      intro q hq
      have hmem : q.1 ∈ (AggressionVariants.emotion_map
          (AggressionVariants.levelStr level)).map Prod.fst :=
        List.mem_map_of_mem _ hq
      rw [AggressionVariants.emotion_map_keys] at hmem
      simpa using hall q.1 hmem
    simp only [AggressionVariants.adjust_emotion, hnone]
  · cases hf : (AggressionVariants.emotion_map
        (AggressionVariants.levelStr level)).find?
          (fun p => pyIn p.1 (pyLower original)) with
    | none =>
      right
      simp only [AggressionVariants.adjust_emotion, hf]
    | some p =>
      left
      have : AggressionVariants.adjust_emotion original kw
          (AggressionVariants.levelStr level) = p.2 := by
        simp only [AggressionVariants.adjust_emotion, hf]
      rw [this]
      exact List.mem_map_of_mem _ (List.mem_of_find?_eq_some hf)
  · intro scene preset
    unfold AggressionVariants.modify_scene
    exact AggressionVariants.sceneGet_sceneSet_self _ _ _

/-- Witness for C4: a matching base word is translated per level, and a
non-matching emotion falls back to the first preset keyword. -/
theorem c4_adjust_emotion_coherent_remap_witness :
    some (AggressionVariants.adjust_emotion "Frustrated delivery" ["urgent"]
        "ultra")
      = (AggressionVariants.emotion_map "ultra").lookup "frustrated"
    ∧ AggressionVariants.adjust_emotion "serene vibe" ["calm", "peaceful"]
        "soft" = "calm" := by
  constructor
  · exact (c4_adjust_emotion_coherent_remap "Frustrated delivery" ["urgent"]
      .ultra).1 "frustrated" (by decide)
  · exact (c4_adjust_emotion_coherent_remap "serene vibe" ["calm", "peaceful"]
      .soft).2.1 (by decide)

/-- C9: `generate_variants` never mutates its input: in the heap model of
the Python dicts, every address allocated before the call holds the same
scene dict afterwards, because `_modify_scene` builds each modified scene
on a fresh copy (`scene.copy()`) and writes `aggression_modifiers` and the
rewritten emotion only to that copy. -/
theorem c9_generate_variants_no_mutation (st : AggressionVariants.Store)
    (sceneAddrs : List Nat)
    (presets : AggressionVariants.Level → AggressionVariants.Preset) :
    (∀ i, i < st.length →
      ((AggressionVariants.generate_variants_heap st sceneAddrs presets).1)[i]?
        = st[i]?)
    ∧ ∀ (a : Nat) (preset : AggressionVariants.Preset) (level : String),
        AggressionVariants.modify_scene_heap st a preset level
          = (st ++ [AggressionVariants.modify_scene (st.getD a []) preset level],
             st.length) := by
  constructor
  · intro i hi
    obtain ⟨ext, hext⟩ :=
      AggressionVariants.generate_variants_heap_extends st sceneAddrs presets
    rw [hext, List.getElem?_append_left hi]
  · intro a preset level
    exact AggressionVariants.modify_scene_heap_eq st a preset level

/-- Witness for C9: a concrete one-scene store is unchanged at address 0 by
a full variant generation. -/
theorem c9_generate_variants_no_mutation_witness :
    ((AggressionVariants.generate_variants_heap
        [[("emotion", .str "excited")]] [0]
        AggressionVariants.defaultPresets).1)[0]?
      = some [("emotion", .str "excited")] := by
  have h := (c9_generate_variants_no_mutation [[("emotion", .str "excited")]]
      [0] AggressionVariants.defaultPresets).1 0 (by decide)
  rw [h]
  rfl

namespace PromptValidator

theorem isPrefixL_append_of (pat a b : List Char) (h : isPrefixL pat a = true) :
    isPrefixL pat (a ++ b) = true := by
  induction pat generalizing a with
  | nil => rfl
  | cons p ps ih =>
    cases a with
    | nil => exact absurd h (by simp [isPrefixL])
    | cons x xs =>
      simp only [isPrefixL, Bool.and_eq_true] at h
      simp only [List.cons_append, isPrefixL, Bool.and_eq_true]
      exact ⟨h.1, ih xs h.2⟩

theorem subListL_of_isPrefixL (pat l : List Char)
    (h : isPrefixL pat l = true) : subListL pat l = true := by
  cases l with
  | nil =>
    cases pat with
    | nil => rfl
    | cons p ps => exact absurd h (by simp [isPrefixL])
  | cons c rest => simp [subListL, h]

theorem pyIn_of_prefix (needle lit s : String)
    (h : isPrefixL needle.data lit.data = true) :
    pyIn needle (lit ++ s) = true := by
  unfold pyIn
  rw [String.data_append]
  exact subListL_of_isPrefixL _ _ (isPrefixL_append_of _ _ _ h)

end PromptValidator

/-- C10: a prompt record lacking `has_character` is treated as a character
scene (`.get('has_character', True)`), by `validate_prompt` and by
`validate_all_prompts` alike, so the object-only forbidden-word check runs
only when `has_character` is explicitly false — an unmarked prompt
containing person-referencing words can still be reported valid. -/
theorem c10_missing_has_character_defaults_true (p : String)
    (purpose : String) (prompts : List PromptValidator.PromptData) :
    PromptValidator.validate_prompt p ⟨none, purpose⟩
      = PromptValidator.validate_prompt p ⟨some true, purpose⟩
    ∧ PromptValidator.validate_all_prompts prompts
      = PromptValidator.validate_all_prompts
          (prompts.map (fun pd =>
            { pd with has_character := some (pd.has_character.getD true) }))
    ∧ (PromptValidator.validate_prompt "person walks by" ⟨none, ""⟩).1 = true
    ∧ pyIn "person" "person walks by" = true := by
  refine ⟨rfl, ?_, by decide, by decide⟩
  unfold PromptValidator.validate_all_prompts
  rw [List.enum_map, List.foldl_map, List.length_map]
  rfl

namespace PromptValidator

theorem validate_broll_prompt_people_error (prompt : String)
    (h : pyIn "character" (pyLower prompt) = true) :
    ∃ refs : String,
      (validate_broll_prompt prompt).2
        = [s!"B-roll contains people references: {refs}. B-roll must have NO people visible (Sora limitation)."] := by
  have hmem : "character" ∈
      BROLL_FORBIDDEN.filter (fun forbidden => pyIn forbidden (pyLower prompt)) :=
    List.mem_filter.mpr ⟨by decide, h⟩
  have hne : (BROLL_FORBIDDEN.filter
      (fun forbidden => pyIn forbidden (pyLower prompt))).isEmpty = false := by
    rcases hfe :
        BROLL_FORBIDDEN.filter (fun forbidden => pyIn forbidden (pyLower prompt)) with
      _ | ⟨hd, tl⟩
    · rw [hfe] at hmem
      exact absurd hmem (List.not_mem_nil _)
    · rfl
  refine ⟨String.intercalate ", "
    (BROLL_FORBIDDEN.filter (fun forbidden => pyIn forbidden (pyLower prompt))), ?_⟩
  unfold validate_broll_prompt
  simp only [hne, Bool.false_eq_true, if_false]

theorem validate_prompt_broll_errors (prompt : String)
    (scene_info : SceneInfo) (hchar : scene_info.has_character = some false) :
    (validate_prompt prompt scene_info).2.2
      = (check_length prompt).2 ++ (check_emotions prompt).2
        ++ (validate_broll_prompt prompt).2
        ++ (check_required_elements prompt).2 ++ (check_text_overlays prompt).2
        ++ (check_audio_timing prompt).2 ++ (check_shot_transitions prompt).2
    ∧ (validate_prompt prompt scene_info).1
      = (validate_prompt prompt scene_info).2.2.isEmpty := by
  unfold validate_prompt
  rw [hchar]
  exact ⟨rfl, rfl⟩

end PromptValidator

/-- C6: an object-only prompt (`has_character` false) containing the literal
word "character" anywhere, case-insensitively, fails validation
(`is_valid = false`) and its errors list contains a people-references
error. -/
theorem c6_broll_character_word_is_invalid (prompt : String)
    (scene_info : PromptValidator.SceneInfo)
    (hchar : scene_info.has_character = some false)
    (hword : pyIn "character" (pyLower prompt) = true) :
    (PromptValidator.validate_prompt prompt scene_info).1 = false
    ∧ ∃ e ∈ (PromptValidator.validate_prompt prompt scene_info).2.2,
        pyIn "B-roll contains people references" e = true := by
  obtain ⟨body, herrs⟩ :=
    PromptValidator.validate_prompt_broll_errors prompt scene_info hchar
  obtain ⟨refs, hbr⟩ :=
    PromptValidator.validate_broll_prompt_people_error prompt hword
  have hmsg : pyIn "B-roll contains people references"
      (s!"B-roll contains people references: {refs}. B-roll must have NO people visible (Sora limitation).") = true := by
    exact PromptValidator.pyIn_of_prefix _ "B-roll contains people references: "
      _ (by decide)
  have hmem : (s!"B-roll contains people references: {refs}. B-roll must have NO people visible (Sora limitation).")
      ∈ (PromptValidator.validate_prompt prompt scene_info).2.2 := by
    rw [body, hbr]
    refine List.mem_append_left _ (List.mem_append_left _
      (List.mem_append_left _ (List.mem_append_left _
        (List.mem_append_right _ ?_))))
    exact List.mem_singleton.mpr rfl
  refine ⟨?_, ⟨_, hmem, hmsg⟩⟩
  rw [herrs]
  rcases hfe : (PromptValidator.validate_prompt prompt scene_info).2.2 with
    _ | ⟨hd, tl⟩
  · rw [hfe] at hmem
    exact absurd hmem (List.not_mem_nil _)
  · rfl

/-- Witness for C6: a concrete object-only prompt containing "Character". -/
theorem c6_broll_character_word_is_invalid_witness :
    (PromptValidator.validate_prompt "Character reveal footage"
        ⟨some false, ""⟩).1 = false
    ∧ ∃ e ∈ (PromptValidator.validate_prompt "Character reveal footage"
        ⟨some false, ""⟩).2.2,
        pyIn "B-roll contains people references" e = true :=
  c6_broll_character_word_is_invalid "Character reveal footage"
    ⟨some false, ""⟩ rfl (by decide)

/-- Counterexample to C7 as stated: this character prompt is 47 characters,
has no quoted dialogue, produces warnings, and has no length error and no
emotion-contradiction error — its only error is the text-overlay-count
error — yet `is_valid` is false.  So "is_valid == true provided it has no
length or emotion-contradiction errors" fails: other error categories can
also flip validity. -/
theorem c7_warnings_validity_counterexample :
    PromptValidator.pyLen
        "overlay overlay overlay overlay overlay overlay" < 50
    ∧ pyIn "\"" "overlay overlay overlay overlay overlay overlay" = false
    ∧ (PromptValidator.validate_prompt
        "overlay overlay overlay overlay overlay overlay"
        ⟨some true, "hook"⟩).2.1 ≠ []
    ∧ (PromptValidator.validate_prompt
        "overlay overlay overlay overlay overlay overlay"
        ⟨some true, "hook"⟩).2.2
      = ["Too many text overlays: 6 (max: 5). Reduce text for readability."]
    ∧ (PromptValidator.validate_prompt
        "overlay overlay overlay overlay overlay overlay"
        ⟨some true, "hook"⟩).1 = false := by
  refine ⟨by decide, by decide, by decide, by decide, by decide⟩

/-- C7 as amended: `is_valid` is true exactly when the errors list is empty,
so warnings never flip validity; a character prompt under 50 characters
with no quoted dialogue always produces at least one warning, and it is
valid provided it has no errors of any category (not only length and
emotion-contradiction errors: overlay-count and timing errors also flip
validity). -/
theorem c7_validity_iff_no_errors (prompt : String)
    (scene_info : PromptValidator.SceneInfo) :
    ((PromptValidator.validate_prompt prompt scene_info).1 = true
      ↔ (PromptValidator.validate_prompt prompt scene_info).2.2 = [])
    ∧ (scene_info.has_character.getD true = true →
        PromptValidator.pyLen prompt < 50 →
        pyIn "\"" prompt = false →
        (PromptValidator.validate_prompt prompt scene_info).2.1 ≠ []
        ∧ ((PromptValidator.validate_prompt prompt scene_info).2.2 = [] →
            (PromptValidator.validate_prompt prompt scene_info).1 = true)) := by
  have hvalid : (PromptValidator.validate_prompt prompt scene_info).1
      = (PromptValidator.validate_prompt prompt scene_info).2.2.isEmpty := by
    unfold PromptValidator.validate_prompt
    rfl
  constructor
  · rw [hvalid]
    exact List.isEmpty_iff
  · intro hchar hlen hquote
    constructor
    · unfold PromptValidator.validate_prompt
      rw [hchar]
      simp only [if_true]
      unfold PromptValidator.validate_character_prompt
      simp only [hquote, Bool.false_eq_true, if_false]
      intro hnil
      simp only [List.append_eq_nil] at hnil
      exact List.cons_ne_nil _ _ hnil.1.1.1.1.2.2
    · intro hnil
      rw [hvalid, hnil]
      rfl

/-- Witness for C7 (amended): a concrete short character prompt with no
quote has warnings and, having no errors at all, is valid. -/
theorem c7_validity_iff_no_errors_witness :
    (PromptValidator.validate_prompt "hi" ⟨some true, "hook"⟩).2.1 ≠ []
    ∧ ((PromptValidator.validate_prompt "hi" ⟨some true, "hook"⟩).2.2 = [] →
        (PromptValidator.validate_prompt "hi" ⟨some true, "hook"⟩).1 = true) :=
  (c7_validity_iff_no_errors "hi" ⟨some true, "hook"⟩).2 rfl (by decide)
    (by decide)

namespace SoraClient

instance : IsTotal ResultEntry (fun a b => a.sceneNumber ≤ b.sceneNumber) :=
  ⟨fun a b => Nat.le_total a.sceneNumber b.sceneNumber⟩

instance : IsTrans ResultEntry (fun a b => a.sceneNumber ≤ b.sceneNumber) :=
  ⟨fun _ _ _ => Nat.le_trans⟩

instance : IsAntisymm ResultEntry (fun a b => a.sceneNumber < b.sceneNumber) :=
  ⟨fun _ _ h1 h2 => absurd h1 (Nat.lt_asymm h2)⟩

theorem startJobs_map_scene_number (submit : Nat → Except String String) :
    ∀ (prompts : List ScenePrompt) (i : Nat) (jobs : List Job),
      startJobs submit i prompts = .ok jobs →
      jobs.map (fun j => j.scene_number) = prompts.map (fun p => p.scene_number) := by
  intro prompts
  induction prompts with
  | nil =>
    intro i jobs h
    simp only [startJobs, Except.ok.injEq] at h
    rw [← h]
    rfl
  | cons p rest ih =>
    intro i jobs h
    simp only [startJobs] at h
    cases hs : submit i with
    | error e => rw [hs] at h; exact absurd h (by simp)
    | ok jid =>
      rw [hs] at h
      cases hr : startJobs submit (i + 1) rest with
      | error e => rw [hr] at h; exact absurd h (by simp)
      | ok jobs0 =>
        rw [hr] at h
        simp only [Except.ok.injEq] at h
        rw [← h]
        simp only [List.map_cons]
        rw [ih (i + 1) jobs0 hr]

theorem map_getD_range {α : Type} (l : List α) (d : α) :
    (List.range l.length).map (fun i => l.getD i d) = l := by
  induction l with
  | nil => rfl
  | cons a tl ih =>
    rw [List.length_cons, List.range_succ_eq_map, List.map_cons, List.map_map]
    have hcomp : ((fun i => (a :: tl).getD i d) ∘ fun i => i + 1)
        = fun i => tl.getD i d := by
      funext i
      simp [List.getD]
    rw [hcomp, ih]
    rfl

theorem pairwise_lt_of_sorted_nodup (l : List ResultEntry)
    (hs : l.Pairwise (fun a b => a.sceneNumber ≤ b.sceneNumber))
    (hn : (l.map ResultEntry.sceneNumber).Nodup) :
    l.Pairwise (fun a b => a.sceneNumber < b.sceneNumber) := by
  have hne : l.Pairwise (fun a b => a.sceneNumber ≠ b.sceneNumber) := by
    rw [List.Nodup, List.pairwise_map] at hn
    exact hn
  exact (hs.and hne).imp (fun h => lt_of_le_of_ne h.1 h.2)

theorem insertionSort_eq_of_perm_of_strict (l target : List ResultEntry)
    (hperm : l.Perm target)
    (hstrict : target.Pairwise (fun a b => a.sceneNumber < b.sceneNumber)) :
    List.insertionSort (fun a b => a.sceneNumber ≤ b.sceneNumber) l = target := by
  have hperm2 :
      (List.insertionSort (fun a b => a.sceneNumber ≤ b.sceneNumber) l).Perm
        target :=
    (List.perm_insertionSort _ l).trans hperm
  have hnodupT : (target.map ResultEntry.sceneNumber).Nodup := by
    rw [List.Nodup, List.pairwise_map]
    exact hstrict.imp (fun h => Nat.ne_of_lt h)
  have hnodup :
      ((List.insertionSort (fun a b => a.sceneNumber ≤ b.sceneNumber) l).map
        ResultEntry.sceneNumber).Nodup :=
    ((hperm2.map _).nodup_iff).mpr hnodupT
  exact List.eq_of_perm_of_sorted hperm2
    (pairwise_lt_of_sorted_nodup _ (List.sorted_insertionSort _ l) hnodup)
    hstrict

end SoraClient

/-- C1: for every list of scene prompts and every order in which the
backend reports completions, the `scenes` sequence returned by
`generate_variant_parallel` is sorted by `scene_number` ascending, and
(for distinct scene numbers) two runs differing only in completion order
return identical results — completion order never affects the output. -/
theorem c1_generate_variant_parallel_sorted
    (scene_prompts : List SoraClient.ScenePrompt) (variant_name : String)
    (submit : Nat → Except String String)
    (outcome : Nat → SoraClient.JobOutcome) (order1 order2 : List Nat)
    (h1 : order1.Perm (List.range scene_prompts.length))
    (h2 : order2.Perm (List.range scene_prompts.length)) :
    (∀ vr, SoraClient.generate_variant_parallel submit outcome order1
        scene_prompts variant_name = .ok vr →
      (vr.scenes.map SoraClient.ResultEntry.sceneNumber).Pairwise (· ≤ ·))
    ∧ ((scene_prompts.map (fun p => p.scene_number)).Nodup →
        SoraClient.generate_variant_parallel submit outcome order1
          scene_prompts variant_name
        = SoraClient.generate_variant_parallel submit outcome order2
          scene_prompts variant_name) := by
  constructor
  · intro vr hvr
    unfold SoraClient.generate_variant_parallel at hvr
    cases hsj : SoraClient.startJobs submit 0 scene_prompts with
    | error e => rw [hsj] at hvr; exact absurd hvr (by simp)
    | ok jobs =>
      rw [hsj] at hvr
      simp only [Except.ok.injEq] at hvr
      rw [← hvr]
      rw [List.pairwise_map]
      exact List.sorted_insertionSort _ _
  · intro hnodup
    unfold SoraClient.generate_variant_parallel
    cases hsj : SoraClient.startJobs submit 0 scene_prompts with
    | error e => rfl
    | ok jobs =>
      have hjn : jobs.map (fun j => j.scene_number)
          = scene_prompts.map (fun p => p.scene_number) :=
        SoraClient.startJobs_map_scene_number submit scene_prompts 0 jobs hsj
      have hlen : jobs.length = scene_prompts.length := by
        have := congrArg List.length hjn
        simpa using this
      set d : SoraClient.Job :=
        { job_id := "", scene_number := 0,
          scene_data := { scene_number := 0, prompt := "" } } with hd
      set f : Nat → SoraClient.ResultEntry :=
        fun i => SoraClient.mkEntry (jobs.getD i d) (outcome i) with hf
      have hperm : (order1.map f).Perm (order2.map f) :=
        (h1.trans h2.symm).map f
      have hkeys : ∀ order : List Nat,
          order.Perm (List.range scene_prompts.length) →
          ((order.map f).map SoraClient.ResultEntry.sceneNumber).Nodup := by
        intro order horder
        rw [List.map_map]
        have hrange :
            ((List.range scene_prompts.length).map
              (SoraClient.ResultEntry.sceneNumber ∘ f)).Nodup := by
          have hmaps :
              (List.range scene_prompts.length).map
                  (SoraClient.ResultEntry.sceneNumber ∘ f)
                = jobs.map (fun j => j.scene_number) := by
            rw [← hlen]
            have := congrArg
              (fun l => l.map (fun j : SoraClient.Job => j.scene_number))
              (SoraClient.map_getD_range jobs d)
            simp only [List.map_map] at this
            convert this using 2
            funext i
            simp [hf, SoraClient.mkEntry]
            cases outcome i <;> rfl
          rw [hmaps, hjn]
          exact hnodup
        exact ((horder.map _).nodup_iff).mpr hrange
      have hstrict2 :
          (List.insertionSort
            (fun a b => a.sceneNumber ≤ b.sceneNumber) (order2.map f)).Pairwise
            (fun a b => a.sceneNumber < b.sceneNumber) := by
        apply SoraClient.pairwise_lt_of_sorted_nodup _
          (List.sorted_insertionSort _ _)
        exact ((List.perm_insertionSort _ _).map _).nodup_iff.mpr
          (hkeys order2 h2)
      have hs : List.insertionSort
            (fun a b => a.sceneNumber ≤ b.sceneNumber) (order1.map f)
          = List.insertionSort
            (fun a b => a.sceneNumber ≤ b.sceneNumber) (order2.map f) :=
        SoraClient.insertionSort_eq_of_perm_of_strict _ _
          (hperm.trans (List.perm_insertionSort _ _).symm) hstrict2
      simp only [hs]

/-- Witness for C1: two reverse-ish completion orders of a concrete
3-prompt run give the same result, and its scene numbers are sorted. -/
theorem c1_generate_variant_parallel_sorted_witness :
    (SoraClient.generate_variant_parallel (fun _ => .ok "j")
        (fun _ => .completed "v" none) [2, 0, 1]
        [⟨1, "a"⟩, ⟨2, "b"⟩, ⟨3, "c"⟩] "m"
      = SoraClient.generate_variant_parallel (fun _ => .ok "j")
        (fun _ => .completed "v" none) [1, 2, 0]
        [⟨1, "a"⟩, ⟨2, "b"⟩, ⟨3, "c"⟩] "m")
    ∧ ((({ variant_name := "m", variant_dir := "videos/m",
           scenes := [.completedE 1 "v" none "j", .completedE 2 "v" none "j",
                      .completedE 3 "v" none "j"],
           total_scenes := 3,
           success := true } : SoraClient.VariantResult)).scenes.map
        SoraClient.ResultEntry.sceneNumber).Pairwise (· ≤ ·) := by
  have h := c1_generate_variant_parallel_sorted
    [⟨1, "a"⟩, ⟨2, "b"⟩, ⟨3, "c"⟩] "m" (fun _ => .ok "j")
    (fun _ => .completed "v" none) [2, 0, 1] [1, 2, 0]
    (by decide) (by decide)
  exact ⟨h.2 (by decide), h.1 _ (by rfl)⟩

/-- Counterexample to C2 as stated: with 3 prompts whose second submission
raises, `generate_variant_parallel` does not return a 3-entry result at
all — the fan-out loop has no exception handler, so the exception
propagates out of the call. -/
theorem c2_submission_failure_counterexample :
    SoraClient.generate_variant_parallel
        (fun i => if i = 1 then .error "submission failed" else .ok "job")
        (fun _ => .completed "v.mp4" none) [0, 1, 2]
        [⟨1, "p1"⟩, ⟨2, "p2"⟩, ⟨3, "p3"⟩] "medium"
      = .error "submission failed" := by
  rfl

/-- C2 as amended: a submission exception for the second of 3 prompts
propagates out of `generate_variant_parallel` (no result is returned, and
the already-submitted sibling jobs are simply abandoned, not cancelled);
the 3-entry result with entries 1 and 3 completed, entry 2 failed, and
`success = false` is returned instead when all three submissions succeed
and job 2 fails during polling. -/
theorem c2_submission_failure_aborts
    (p1 p2 p3 : SoraClient.ScenePrompt)
    (submit : Nat → Except String String)
    (outcome : Nat → SoraClient.JobOutcome) (order : List Nat)
    (variant_name : String) :
    (∀ e j0, submit 0 = .ok j0 → submit 1 = .error e →
        SoraClient.generate_variant_parallel submit outcome order
          [p1, p2, p3] variant_name = .error e)
    ∧ (∀ j0 j1 j2 path0 cu0 err path2 cu2,
        submit 0 = .ok j0 → submit 1 = .ok j1 → submit 2 = .ok j2 →
        outcome 0 = .completed path0 cu0 → outcome 1 = .failed err →
        outcome 2 = .completed path2 cu2 →
        order.Perm [0, 1, 2] →
        p1.scene_number = 1 → p2.scene_number = 2 → p3.scene_number = 3 →
        ∃ vr, SoraClient.generate_variant_parallel submit outcome order
            [p1, p2, p3] variant_name = .ok vr
          ∧ vr.scenes = [.completedE 1 path0 cu0 j0, .failedE 2 err,
                         .completedE 3 path2 cu2 j2]
          ∧ vr.success = false) := by
  constructor
  · intro e j0 h0 h1
    simp [SoraClient.generate_variant_parallel, SoraClient.startJobs, h0, h1]
  · intro j0 j1 j2 path0 cu0 err path2 cu2 h0 h1 h2 ho0 ho1 ho2 horder
      hp1 hp2 hp3
    have hsj : SoraClient.startJobs submit 0 [p1, p2, p3]
        = .ok [{ job_id := j0, scene_number := 1, scene_data := p1 },
               { job_id := j1, scene_number := 2, scene_data := p2 },
               { job_id := j2, scene_number := 3, scene_data := p3 }] := by
      simp [SoraClient.startJobs, h0, h1, h2, hp1, hp2, hp3]
    have htarget :
        List.insertionSort (fun a b => a.sceneNumber ≤ b.sceneNumber)
          (order.map (fun i =>
            SoraClient.mkEntry
              (List.getD
                [{ job_id := j0, scene_number := 1, scene_data := p1 },
                 { job_id := j1, scene_number := 2, scene_data := p2 },
                 { job_id := j2, scene_number := 3, scene_data := p3 }] i
                { job_id := "", scene_number := 0,
                  scene_data := { scene_number := 0, prompt := "" } })
              (outcome i)))
        = [.completedE 1 path0 cu0 j0, .failedE 2 err,
           .completedE 3 path2 cu2 j2] := by
      apply SoraClient.insertionSort_eq_of_perm_of_strict
      · have := horder.map (fun i =>
          SoraClient.mkEntry
            (List.getD
              [{ job_id := j0, scene_number := 1, scene_data := p1 },
               { job_id := j1, scene_number := 2, scene_data := p2 },
               { job_id := j2, scene_number := 3, scene_data := p3 }] i
              { job_id := "", scene_number := 0,
                scene_data := { scene_number := 0, prompt := "" } })
            (outcome i))
        simpa [SoraClient.mkEntry, ho0, ho1, ho2] using this
      · simp [List.pairwise_cons, SoraClient.ResultEntry.sceneNumber]
    refine ⟨{ variant_name := variant_name
              variant_dir := SoraClient.VIDEOS_DIR ++ "/" ++ variant_name
              scenes := [.completedE 1 path0 cu0 j0, .failedE 2 err,
                         .completedE 3 path2 cu2 j2]
              total_scenes := 3
              success := false }, ?_, rfl, rfl⟩
    unfold SoraClient.generate_variant_parallel
    rw [hsj]
    simp only [htarget]
    rfl

/-- Witness for C2 (amended): concrete instantiations of both branches —
the propagated submission exception, and the 3-entry partial-failure
result for a polling-time failure of job 2. -/
theorem c2_submission_failure_aborts_witness :
    SoraClient.generate_variant_parallel
        (fun i => if i = 1 then .error "boom" else .ok "jobA")
        (fun _ => .completed "v.mp4" none) [0, 1, 2]
        [⟨1, "p1"⟩, ⟨2, "p2"⟩, ⟨3, "p3"⟩] "medium" = .error "boom"
    ∧ ∃ vr, SoraClient.generate_variant_parallel (fun _ => .ok "jobA")
          (fun i => if i = 1 then .failed (some "render error")
                    else .completed "v.mp4" none)
          [2, 1, 0] [⟨1, "p1"⟩, ⟨2, "p2"⟩, ⟨3, "p3"⟩] "medium" = .ok vr
        ∧ vr.scenes = [.completedE 1 "v.mp4" none "jobA",
                       .failedE 2 (some "render error"),
                       .completedE 3 "v.mp4" none "jobA"]
        ∧ vr.success = false := by
  constructor
  · exact (c2_submission_failure_aborts ⟨1, "p1"⟩ ⟨2, "p2"⟩ ⟨3, "p3"⟩
      (fun i => if i = 1 then .error "boom" else .ok "jobA")
      (fun _ => .completed "v.mp4" none) [0, 1, 2] "medium").1
      "boom" "jobA" rfl rfl
  · exact (c2_submission_failure_aborts ⟨1, "p1"⟩ ⟨2, "p2"⟩ ⟨3, "p3"⟩
      (fun _ => .ok "jobA")
      (fun i => if i = 1 then .failed (some "render error")
                else .completed "v.mp4" none)
      [2, 1, 0] "medium").2
      "jobA" "jobA" "jobA" "v.mp4" none (some "render error") "v.mp4" none
      rfl rfl rfl rfl rfl rfl (by decide) rfl rfl rfl

/-- Counterexample to C5 as stated: on a one-scene variant with the
3-sentence script "One. Two. Three.", `build_all_scene_prompts` uses the
entire script as the scene's segment (`_split_script_intelligently`
returns `[script]` when `len(scenes) == 1`), which is neither the first
sentence nor the first two sentences. -/
theorem c5_single_scene_counterexample :
    (SoraPromptBuilder.build_all_scene_prompts (fun _ _ _ _ => "")
        SoraPromptBuilder.sampleSingleSceneVariant
        "desc" "One. Two. Three.").map (fun r => r.script_segment)
      = ["One. Two. Three."]
    ∧ ("One. Two. Three." = "One.") = False
    ∧ ("One. Two. Three." = "One. Two.") = False
    ∧ SoraPromptBuilder.pySplitSentences "One. Two. Three."
      = ["One.", "Two.", "Three."] := by
  refine ⟨by decide, by simp, by simp, by decide⟩

/-- C5 as amended: when the variant has exactly one scene, the script
segment used for that scene is the entire full script (not a 1-2 sentence
hook). -/
theorem c5_single_scene_full_script
    (buildScene : SoraPromptBuilder.SceneP → SoraPromptBuilder.VariantP →
      String → String → String)
    (variant : SoraPromptBuilder.VariantP) (desc script : String)
    (h : variant.modified_scenes.length = 1) :
    (SoraPromptBuilder.build_all_scene_prompts buildScene variant desc
        script).map (fun r => r.script_segment) = [script] := by
  obtain ⟨sc, hsc⟩ := List.length_eq_one.mp h
  unfold SoraPromptBuilder.build_all_scene_prompts
  rw [hsc]
  unfold SoraPromptBuilder.split_script_intelligently
  simp [List.enum]

/-- Witness for C5 (amended): the concrete one-scene variant again. -/
theorem c5_single_scene_full_script_witness :
    (SoraPromptBuilder.build_all_scene_prompts (fun _ _ _ _ => "")
        SoraPromptBuilder.sampleSingleSceneVariant
        "desc" "One. Two. Three.").map (fun r => r.script_segment)
      = ["One. Two. Three."] :=
  c5_single_scene_full_script (fun _ _ _ _ => "")
    SoraPromptBuilder.sampleSingleSceneVariant
    "desc" "One. Two. Three." rfl
